import Mathlib

/-!
Verification of the `basic-event-emitter` repository (src/src/index.ts).

The single class `BasicEventEmitter` owns three pieces of instance state:
an ordered array `this[_subscriptions]` of `{ event, callback, once }`
records, a `Map` `this[_oneTimeEvents]` from event name to the argument
tuple it was sealed with, and a boolean `this._ready`.

Shallow embedding choices:
* event names are `String`, argument tuples are `List Nat` (opaque values);
* callback function values are an inductive `Callback`: an opaque
  user-supplied callback (identified by a number, assumed not to touch the
  emitter's state), the listener registered by the constructor
  (`() => { this._ready = true; }`), and the wrapper `ourCallback` created
  by `once` (`(...arg) => { resolve(); callback?.(...arg); }`, identified
  by the id of the promise it resolves and the wrapped user callback);
* invoking a callback returns the updated emitter state together with a
  trace of observable actions (user-callback invocations and promise
  resolutions), in the order the source performs them;
* the JavaScript `Map` is an insertion-ordered association list;
* a thrown `Error` is modelled by an `error : Option String` field in the
  result of `emit`/`emitOnce`; the state returned alongside it is the state
  at the moment of the throw (both methods throw before any mutation).
None of the modelled callbacks mutates the subscription array or the
one-time map, so the loop in `emit` — which iterates by index and
decrements the index after splicing out a `once` entry — visits each
element of the array exactly once, in order; the structural recursion
`emitLoop` below mirrors that.
-/

namespace BasicEventEmitter

/-- Event identifiers (the source uses string/symbol keys). -/
abbrev Event := String

/-- Argument tuples passed to `emit`/`emitOnce`, with opaque values. -/
abbrev Args := List Nat

/-- Embedded callback function values (see the module comment). -/
inductive Callback where
  | user : Nat → Callback
  | internalReady : Callback
  | onceWrapper : Nat → Option Nat → Callback
  deriving DecidableEq, Repr

/-- One entry of `this[_subscriptions]` (src/src/index.ts:23-27). -/
structure Subscription where
  event : Event
  callback : Callback
  once : Bool
  deriving DecidableEq, Repr

/-- The instance state of a `BasicEventEmitter` (src/src/index.ts:23-31). -/
structure State where
  subscriptions : List Subscription
  oneTimeEvents : List (Event × Args)
  _ready : Bool
  deriving DecidableEq, Repr

/-- Observable actions performed while callbacks run: `invoke id args` is
the invocation of the opaque user callback `id` with the tuple `args`;
`resolve pid` is a call of promise `pid`'s `resolve()` — the source calls
it with no argument, so no payload is recorded. -/
inductive TraceEvent where
  | invoke : Nat → Args → TraceEvent
  | resolve : Nat → TraceEvent
  deriving DecidableEq, Repr

/-- JavaScript `Map.prototype.get` on the association-list model. -/
def mapGet : List (Event × Args) → Event → Option Args
  | [], _ => none
  | p :: rest, k => if p.1 = k then some p.2 else mapGet rest k

/-- JavaScript `Map.prototype.has`. -/
def mapHas (m : List (Event × Args)) (k : Event) : Bool :=
  (mapGet m k).isSome

/-- JavaScript `Map.prototype.set`: update the existing key in place
(preserving insertion order) or append a fresh entry. -/
def mapSet : List (Event × Args) → Event → Args → List (Event × Args)
  | [], k, v => [(k, v)]
  | p :: rest, k, v => if p.1 = k then (k, v) :: rest else p :: mapSet rest k v

/-- The trace of observable actions produced by invoking a callback with a
given argument tuple. The `onceWrapper` case is `ourCallback` of `once`
(src/src/index.ts:209-212): it calls `resolve()` first and only then the
wrapped callback. -/
def cbTrace : Callback → Args → List TraceEvent
  | .user id, args => [.invoke id args]
  | .internalReady, _ => []
  | .onceWrapper pid inner, args =>
      .resolve pid :: (match inner with | some id => [.invoke id args] | none => [])

/-- Effect of `runCallback(callback, ...arg)` (src/src/index.ts:11-13) on
the emitter state, paired with the action trace. Only the listener
registered by the constructor touches the state (it sets `this._ready`
to `true`, src/src/index.ts:40-42). -/
def runCallback (s : State) (cb : Callback) (args : Args) : State × List TraceEvent :=
  match cb with
  | .user id => (s, [.invoke id args])
  | .internalReady => ({ s with _ready := true }, [])
  | .onceWrapper pid inner =>
      (s, .resolve pid :: (match inner with | some id => [.invoke id args] | none => []))

/-- Method `on` (src/src/index.ts:145-160): replay the stored tuple when
the event is sealed (`?? []` becomes `Option.getD`), otherwise push a
non-once subscription. The returned handle is not modelled. -/
def on' (s : State) (event : Event) (cb : Callback) : State × List TraceEvent :=
  if mapHas s.oneTimeEvents event then
    runCallback s cb ((mapGet s.oneTimeEvents event).getD [])
  else
    ({ s with subscriptions := s.subscriptions ++ [⟨event, cb, false⟩] }, [])

/-- Method `off` (src/src/index.ts:184-187): keep an entry when its event
differs, or when a callback was supplied and differs from the entry's. -/
def off (s : State) (event : Event) (cb? : Option Callback) : State :=
  { s with subscriptions := s.subscriptions.filter fun sub =>
      decide (sub.event ≠ event) ||
        (match cb? with | some cb => decide (sub.callback ≠ cb) | none => false) }

/-- Method `offOnce` (src/src/index.ts:244-247): like `off` but an entry
with `once = false` is always kept. -/
def offOnce (s : State) (event : Event) (cb? : Option Callback) : State :=
  { s with subscriptions := s.subscriptions.filter fun sub =>
      decide (sub.event ≠ event) ||
        (match cb? with | some cb => decide (sub.callback ≠ cb) | none => false) ||
        !sub.once }

/-- Registration part of method `once` (src/src/index.ts:207-223). The
caller picks a fresh id `pid` for the `Promise` being created; `cb?` is
the wrapped user callback. When the event is sealed the wrapper is run
immediately on the stored tuple, otherwise it is pushed with
`once := true`. -/
def once (s : State) (event : Event) (pid : Nat) (cb? : Option Nat) : State × List TraceEvent :=
  let ourCallback := Callback.onceWrapper pid cb?
  if mapHas s.oneTimeEvents event then
    runCallback s ourCallback ((mapGet s.oneTimeEvents event).getD [])
  else
    ({ s with subscriptions := s.subscriptions ++ [⟨event, ourCallback, true⟩] }, [])

/-- The dispatch loop of `emit` (src/src/index.ts:271-281). The source
iterates `this[_subscriptions]` by index, runs every entry whose event
matches, and when that entry has `once = true` splices it out and
decrements the index, so each element of the array is visited exactly
once, in order; since no modelled callback mutates the array, that loop
is this structural recursion. Returns the remaining subscription list,
the state after all callback effects, and the concatenated trace. -/
def emitLoop (event : Event) (args : Args) :
    List Subscription → State → List Subscription × State × List TraceEvent
  | [], s => ([], s, [])
  | sub :: rest, s =>
    if sub.event ≠ event then
      let r := emitLoop event args rest s
      (sub :: r.1, r.2.1, r.2.2)
    else
      let c := runCallback s sub.callback args
      let r := emitLoop event args rest c.1
      if sub.once then (r.1, r.2.1, c.2 ++ r.2.2)
      else (sub :: r.1, r.2.1, c.2 ++ r.2.2)

/-- Result of `emit`/`emitOnce`: `error` models a thrown `Error`, `state`
is the emitter state when the method returns (or throws), `trace` the
actions performed by the callbacks that ran. -/
structure EmitResult where
  error : Option String
  state : State
  trace : List TraceEvent
  deriving DecidableEq, Repr

/-- Method `emit` (src/src/index.ts:267-283): throw when the event has a
permanent one-time record, otherwise run the dispatch loop. -/
def emit (s : State) (event : Event) (args : Args) : EmitResult :=
  if mapHas s.oneTimeEvents event then
    { error := some ("Event \x22" ++ event ++ "\x22 was supposed to be emitted only once"),
      state := s, trace := [] }
  else
    let r := emitLoop event args s.subscriptions s
    { error := none, state := { r.2.1 with subscriptions := r.1 }, trace := r.2.2 }

/-- Method `emitOnce` (src/src/index.ts:304-312): throw when already
sealed; otherwise `this.emit(event, ...arg)`, then
`this[_oneTimeEvents].set(event, arg)`, then `this.offOnce(event)`. -/
def emitOnce (s : State) (event : Event) (args : Args) : EmitResult :=
  if mapHas s.oneTimeEvents event then
    { error := some ("Event \x22" ++ event ++ "\x22 was supposed to be emitted only once"),
      state := s, trace := [] }
  else
    let r := emit s event args
    match r.error with
    | some e => { error := some e, state := r.state, trace := r.trace }
    | none =>
      let s1 := { r.state with oneTimeEvents := mapSet r.state.oneTimeEvents event args }
      { error := none, state := offOnce s1 event none, trace := r.trace }

/-- Method `clearEvents` (src/src/index.ts:122-125): reset the array and
clear the map; `this._ready` is not touched. -/
def clearEvents (s : State) : State :=
  { s with subscriptions := [], oneTimeEvents := [] }

/-- Getter `prepared` (src/src/index.ts:92-94). -/
def prepared (s : State) : Bool :=
  s._ready

/-- Setter `prepared` (src/src/index.ts:110-112): the body is exactly
`this.emit("internal_ready")` — the assigned value is never read. -/
def setPrepared (_value : Bool) (s : State) : EmitResult :=
  emit s "internal_ready" []

/-- The constructor (src/src/index.ts:36-43): empty registry and map,
`_ready = false`, then `this.on("internal_ready", () => { this._ready = true; })`. -/
def initialState : State :=
  (on' { subscriptions := [], oneTimeEvents := [], _ready := false }
    "internal_ready" Callback.internalReady).1

/-- Position of the first occurrence of `a` in a trace, when present. -/
def traceIdx (tr : List TraceEvent) (a : TraceEvent) : Option Nat :=
  tr.findIdx? (· = a)

/-- True when both actions occur in the trace and the first occurrence of
`a` is strictly before the first occurrence of `b`. -/
def precedes (tr : List TraceEvent) (a b : TraceEvent) : Bool :=
  match traceIdx tr a, traceIdx tr b with
  | some i, some j => i < j
  | _, _ => false

/-- Phase at which a piece of work runs, relative to the stack of the call
that requested it: `sync` means inside that same synchronous stack,
`laterTurn` means on a later event-loop/microtask turn. -/
inductive Phase where
  | sync
  | laterTurn
  deriving DecidableEq, Repr

/-- Observable shape of one `ready(callback?)` call: at which phase the
supplied callback body starts running (`none` when no callback was
given), and whether the returned promise resolves with the (awaited)
result of the callback. -/
structure ReadyCall where
  cbPhase : Option Phase
  resolvesWithCbResult : Bool
  deriving DecidableEq, Repr

/-- Method `ready` (src/src/index.ts:60-72), as a function of whether
`this._ready` already holds and whether a callback was supplied. In
JavaScript the body of an `async` function executes synchronously up to
its first `await`; hence when `this._ready` is true the expression
`await callback?.()` invokes the callback before the first suspension,
inside the caller's current synchronous stack, and the promise later
resolves with the awaited response. When `this._ready` is false the
callback is only invoked from the `once("internal_ready", ...)` listener,
i.e. on the later turn in which the readiness event fires, and
`resolve(response)` again carries the callback's awaited result. -/
def readyModel (isReady : Bool) (hasCb : Bool) : ReadyCall :=
  if isReady then
    { cbPhase := if hasCb then some .sync else none, resolvesWithCbResult := true }
  else
    { cbPhase := if hasCb then some .laterTurn else none, resolvesWithCbResult := true }

/-- The pending branch of `ready` (src/src/index.ts:66-71) registers, via
`this.once("internal_ready", ...)`, a listener whose synchronous part
invokes the supplied callback; `pid` is the id of the promise created by
`once` and `cb?` the supplied callback. -/
def readyRegister (s : State) (pid : Nat) (cb? : Option Nat) : State × List TraceEvent :=
  once s "internal_ready" pid cb?

/-- A sample emitter state used by the concrete witnesses below: the
internal readiness listener, three listeners on "greet" (one of them a
once-wrapper), one on "farewell", and an already sealed event "boot". -/
def demoState : State :=
  { subscriptions :=
      [⟨"internal_ready", Callback.internalReady, false⟩,
       ⟨"greet", Callback.user 0, false⟩,
       ⟨"greet", Callback.onceWrapper 1 (some 2), true⟩,
       ⟨"farewell", Callback.user 3, false⟩,
       ⟨"greet", Callback.user 4, false⟩],
    oneTimeEvents := [("boot", [42])],
    _ready := false }

/-- Invoking a callback never touches the subscription array. -/
theorem runCallback_subscriptions (s : State) (cb : Callback) (args : Args) :
    (runCallback s cb args).1.subscriptions = s.subscriptions := by
  cases cb <;> rfl

/-- Invoking a callback never touches the one-time map. -/
theorem runCallback_oneTimeEvents (s : State) (cb : Callback) (args : Args) :
    (runCallback s cb args).1.oneTimeEvents = s.oneTimeEvents := by
  cases cb <;> rfl

/-- The trace of `runCallback` is `cbTrace`. -/
theorem runCallback_trace (s : State) (cb : Callback) (args : Args) :
    (runCallback s cb args).2 = cbTrace cb args := by
  cases cb <;> rfl

/-- Invoking a callback sets the readiness flag exactly when the callback
is the constructor-registered readiness listener. -/
theorem runCallback_ready (s : State) (cb : Callback) (args : Args) :
    (runCallback s cb args).1._ready
      = (s._ready || decide (cb = Callback.internalReady)) := by
  cases cb <;> simp [runCallback]

/-- The dispatch loop keeps exactly the entries whose event differs or
whose `once` flag is false, preserving their order. -/
theorem emitLoop_fst (event : Event) (args : Args) :
    ∀ (subs : List Subscription) (s : State),
      (emitLoop event args subs s).1
        = subs.filter (fun sub => decide (sub.event ≠ event) || !sub.once) := by
  intro subs
  induction subs with
  | nil => intro s; rfl
  | cons sub rest ih =>
    intro s
    by_cases h : sub.event = event
    · by_cases ho : sub.once = true
      · simp [emitLoop, h, ho, List.filter_cons, ih]
      · simp [emitLoop, h, ho, List.filter_cons, ih]
    · simp [emitLoop, h, List.filter_cons, ih]

/-- The dispatch loop runs the callback of every matching entry exactly
once, in order, with the emitted arguments. -/
theorem emitLoop_trace (event : Event) (args : Args) :
    ∀ (subs : List Subscription) (s : State),
      (emitLoop event args subs s).2.2
        = (subs.filter (fun sub => decide (sub.event = event))).flatMap
            (fun sub => cbTrace sub.callback args) := by
  intro subs
  induction subs with
  | nil => intro s; rfl
  | cons sub rest ih =>
    intro s
    by_cases h : sub.event = event
    · by_cases ho : sub.once = true
      · simp [emitLoop, h, ho, List.filter_cons, ih, runCallback_trace]
      · simp [emitLoop, h, ho, List.filter_cons, ih, runCallback_trace]
    · simp [emitLoop, h, List.filter_cons, ih]

/-- The state threaded through the dispatch loop keeps its subscription
field (only the returned first component is written back by `emit`). -/
theorem emitLoop_state_subscriptions (event : Event) (args : Args) :
    ∀ (subs : List Subscription) (s : State),
      (emitLoop event args subs s).2.1.subscriptions = s.subscriptions := by
  intro subs
  induction subs with
  | nil => intro s; rfl
  | cons sub rest ih =>
    intro s
    by_cases h : sub.event = event
    · by_cases ho : sub.once = true <;>
        simp [emitLoop, h, ho, ih, runCallback_subscriptions]
    · simp [emitLoop, h, ih]

/-- The dispatch loop never touches the one-time map. -/
theorem emitLoop_state_oneTimeEvents (event : Event) (args : Args) :
    ∀ (subs : List Subscription) (s : State),
      (emitLoop event args subs s).2.1.oneTimeEvents = s.oneTimeEvents := by
  intro subs
  induction subs with
  | nil => intro s; rfl
  | cons sub rest ih =>
    intro s
    by_cases h : sub.event = event
    · by_cases ho : sub.once = true <;>
        simp [emitLoop, h, ho, ih, runCallback_oneTimeEvents]
    · simp [emitLoop, h, ih]

/-- After the dispatch loop the readiness flag holds iff it held before or
some matching entry carried the internal readiness listener. -/
theorem emitLoop_state_ready (event : Event) (args : Args) :
    ∀ (subs : List Subscription) (s : State),
      (emitLoop event args subs s).2.1._ready
        = (s._ready || subs.any (fun sub =>
            decide (sub.event = event) && decide (sub.callback = Callback.internalReady))) := by
  intro subs
  induction subs with
  | nil => intro s; simp [emitLoop]
  | cons sub rest ih =>
    intro s
    by_cases h : sub.event = event
    · by_cases ho : sub.once = true <;>
        simp [emitLoop, h, ho, ih, runCallback_ready, List.any_cons, Bool.or_assoc]
    · simp [emitLoop, h, ih, List.any_cons]

/-- A key with a stored tuple is present in the map. -/
theorem mapHas_of_mapGet (m : List (Event × Args)) (k : Event) (a : Args)
    (h : mapGet m k = some a) : mapHas m k = true := by
  simp [mapHas, h]

/-- The state produced by `emitOnce(initialState, "boot", [42])`: the event
"boot" is sealed with the tuple `[42]`. Used by concrete witnesses. -/
def sealedBoot : State :=
  (emitOnce initialState "boot" [42]).state

/-- C1: for an event `E` with no permanent one-time record, `emit E args`
does not throw, invokes the callback of every subscription for `E` exactly
once with `args`, in insertion order; the registry afterwards holds, in
order, exactly the previous entries that either belong to another event or
are not `once` (so every matching `once` entry was removed, no other entry
was skipped, duplicated or modified); the one-time map is untouched. -/
theorem C1_emit_dispatch (s : State) (E : Event) (args : Args)
    (h : mapHas s.oneTimeEvents E = false) :
    (emit s E args).error = none ∧
    (emit s E args).trace
      = (s.subscriptions.filter (fun sub => decide (sub.event = E))).flatMap
          (fun sub => cbTrace sub.callback args) ∧
    (emit s E args).state.subscriptions
      = s.subscriptions.filter (fun sub => decide (sub.event ≠ E) || !sub.once) ∧
    (emit s E args).state.oneTimeEvents = s.oneTimeEvents := by
  refine ⟨?_, ?_, ?_, ?_⟩ <;>
    simp [emit, h, emitLoop_fst, emitLoop_trace, emitLoop_state_oneTimeEvents]

/-- Concrete instance of `C1_emit_dispatch` on `demoState` and event
"greet". -/
theorem C1_emit_dispatch_witness :
    mapHas demoState.oneTimeEvents "greet" = false ∧
    ((emit demoState "greet" [5]).error = none ∧
     (emit demoState "greet" [5]).trace
       = (demoState.subscriptions.filter (fun sub => decide (sub.event = "greet"))).flatMap
           (fun sub => cbTrace sub.callback [5]) ∧
     (emit demoState "greet" [5]).state.subscriptions
       = demoState.subscriptions.filter (fun sub => decide (sub.event ≠ "greet") || !sub.once) ∧
     (emit demoState "greet" [5]).state.oneTimeEvents = demoState.oneTimeEvents) :=
  ⟨by decide, C1_emit_dispatch demoState "greet" [5] (by decide)⟩

/-- C2: `emit` and `emitOnce` report a thrown error exactly when the
target event already has a permanent one-time record. -/
theorem C2_sealed_error (s : State) (E : Event) (args : Args) :
    ((emit s E args).error.isSome = mapHas s.oneTimeEvents E) ∧
    ((emitOnce s E args).error.isSome = mapHas s.oneTimeEvents E) := by
  by_cases h : mapHas s.oneTimeEvents E <;> simp [emit, emitOnce, h]

/-- C3: when the event already has a permanent record, `on` runs the
callback immediately on the stored tuple and adds nothing to the registry;
otherwise it appends exactly one non-once subscription and runs nothing. -/
theorem C3_on_replay_or_append (s : State) (E : Event) (cb : Callback) :
    (∀ a, mapGet s.oneTimeEvents E = some a →
        (on' s E cb).2 = cbTrace cb a ∧
        (on' s E cb).1.subscriptions = s.subscriptions) ∧
    (mapHas s.oneTimeEvents E = false →
        on' s E cb
          = ({ s with subscriptions := s.subscriptions ++ [⟨E, cb, false⟩] }, [])) := by
  constructor
  · intro a ha
    have hm : mapHas s.oneTimeEvents E = true := mapHas_of_mapGet _ _ _ ha
    exact ⟨by simp [on', hm, ha, runCallback_trace],
           by simp [on', hm, runCallback_subscriptions]⟩
  · intro h
    simp [on', h]

/-- Concrete instance of `C3_on_replay_or_append`: replay on the sealed
event "boot" of `sealedBoot`, append on the live event "greet" of
`initialState`. -/
theorem C3_on_witness :
    ((on' sealedBoot "boot" (Callback.user 2)).2 = cbTrace (Callback.user 2) [42] ∧
     (on' sealedBoot "boot" (Callback.user 2)).1.subscriptions = sealedBoot.subscriptions) ∧
    on' initialState "greet" (Callback.user 2)
      = ({ initialState with
            subscriptions := initialState.subscriptions ++ [⟨"greet", Callback.user 2, false⟩] },
         []) :=
  ⟨(C3_on_replay_or_append sealedBoot "boot" (Callback.user 2)).1 [42] (by decide),
   (C3_on_replay_or_append initialState "greet" (Callback.user 2)).2 (by decide)⟩

/-- C4 (evaluation at the failing input): starting from a fresh emitter
with one plain `on` listener for "greet", `emitOnce "greet" [1]` performs
the dispatch (the listener runs once with `[1]`) and stores the permanent
record, but the final `this.offOnce(event)` call removes only `once`
subscriptions, so the non-once "greet" subscription is still in the
registry — the claimed removal of every remaining subscription for the
event, which the source's own comment also announces, does not happen. -/
theorem C4_emitOnce_keeps_non_once :
    (emitOnce ((on' initialState "greet" (Callback.user 3)).1) "greet" [1]).error = none ∧
    (emitOnce ((on' initialState "greet" (Callback.user 3)).1) "greet" [1]).trace
      = [TraceEvent.invoke 3 [1]] ∧
    mapGet (emitOnce ((on' initialState "greet" (Callback.user 3)).1) "greet" [1]).state.oneTimeEvents
        "greet" = some [1] ∧
    (emitOnce ((on' initialState "greet" (Callback.user 3)).1) "greet" [1]).state.subscriptions
      = [⟨"internal_ready", Callback.internalReady, false⟩,
         ⟨"greet", Callback.user 3, false⟩] := by
  decide

/-- C5 (counterexample): with a fresh emitter, `once("greet", cb)` for the
user callback 7 (promise id 0) followed by `emit("greet", [5])` produces
the trace `[resolve 0, invoke 7 [5]]`: the wrapper created by `once` calls
`resolve()` first and only then the callback, so the callback is not
invoked before the deferred value resolves. -/
theorem C5_resolve_precedes_callback :
    precedes (emit ((once initialState "greet" 0 (some 7)).1) "greet" [5]).trace
        (TraceEvent.invoke 7 [5]) (TraceEvent.resolve 0) = false ∧
    precedes (emit ((once initialState "greet" 0 (some 7)).1) "greet" [5]).trace
        (TraceEvent.resolve 0) (TraceEvent.invoke 7 [5]) = true := by
  decide

/-- C5 (amended): the deferred value of `once(E, cb)` resolves — with no
payload, i.e. with undefined — when `E` fires, or immediately when `E`
already has a permanent record (then `cb` receives the stored tuple); the
resolve call happens first and `cb` is invoked directly afterwards, both
synchronously inside the dispatch. -/
theorem C5_once_resolution (s : State) (E : Event) (pid cbId : Nat) (args a : Args) :
    (mapGet s.oneTimeEvents E = some a →
      (once s E pid (some cbId)).1 = s ∧
      (once s E pid (some cbId)).2
        = [TraceEvent.resolve pid, TraceEvent.invoke cbId a]) ∧
    (mapHas s.oneTimeEvents E = false →
      (once s E pid (some cbId)).2 = [] ∧
      (emit (once s E pid (some cbId)).1 E args).trace
        = (s.subscriptions.filter (fun sub => decide (sub.event = E))).flatMap
            (fun sub => cbTrace sub.callback args)
          ++ [TraceEvent.resolve pid, TraceEvent.invoke cbId args]) := by
  constructor
  · intro ha
    have hm : mapHas s.oneTimeEvents E = true := mapHas_of_mapGet _ _ _ ha
    exact ⟨by simp [once, hm, runCallback], by simp [once, hm, ha, runCallback]⟩
  · intro h
    refine ⟨by simp [once, h], ?_⟩
    have hs : (once s E pid (some cbId)).1
        = { s with subscriptions :=
              s.subscriptions ++ [⟨E, Callback.onceWrapper pid (some cbId), true⟩] } := by
      simp [once, h]
    rw [hs]
    have h2 : mapHas ({ s with subscriptions :=
        s.subscriptions ++ [⟨E, Callback.onceWrapper pid (some cbId), true⟩] } :
        State).oneTimeEvents E = false := h
    simp [emit, h2, emitLoop_trace, List.filter_append, List.flatMap_append, cbTrace]

/-- Concrete instance of `C5_once_resolution`: immediate replay on the
sealed event "boot" of `sealedBoot`, and deferred firing on the live event
"greet" of `initialState`. -/
theorem C5_once_resolution_witness :
    ((once sealedBoot "boot" 9 (some 5)).1 = sealedBoot ∧
     (once sealedBoot "boot" 9 (some 5)).2
       = [TraceEvent.resolve 9, TraceEvent.invoke 5 [42]]) ∧
    ((once initialState "greet" 0 (some 7)).2 = [] ∧
     (emit (once initialState "greet" 0 (some 7)).1 "greet" [5]).trace
       = (initialState.subscriptions.filter (fun sub => decide (sub.event = "greet"))).flatMap
           (fun sub => cbTrace sub.callback [5])
         ++ [TraceEvent.resolve 0, TraceEvent.invoke 7 [5]]) :=
  ⟨(C5_once_resolution sealedBoot "boot" 9 5 [5] [42]).1 (by decide),
   (C5_once_resolution initialState "greet" 0 7 [5] [42]).2 (by decide)⟩

/-- C6: on an event already sealed with tuple `a`, a further `emitOnce`
reports the thrown error, runs no listener, and leaves the whole emitter
state — in particular the stored record, still `a`, and the registry —
unchanged. -/
theorem C6_sealed_emitOnce_state_unchanged (s : State) (E : Event) (a b : Args)
    (h : mapGet s.oneTimeEvents E = some a) :
    (emitOnce s E b).error.isSome = true ∧
    (emitOnce s E b).state = s ∧
    mapGet (emitOnce s E b).state.oneTimeEvents E = some a ∧
    (emitOnce s E b).trace = [] := by
  have hm : mapHas s.oneTimeEvents E = true := mapHas_of_mapGet _ _ _ h
  refine ⟨?_, ?_, ?_, ?_⟩ <;> simp [emitOnce, hm, h]

/-- Concrete instance of `C6_sealed_emitOnce_state_unchanged` on
`sealedBoot`, sealed with `[42]`, re-emitted with `[7]`. -/
theorem C6_sealed_emitOnce_witness :
    mapGet sealedBoot.oneTimeEvents "boot" = some [42] ∧
    ((emitOnce sealedBoot "boot" [7]).error.isSome = true ∧
     (emitOnce sealedBoot "boot" [7]).state = sealedBoot ∧
     mapGet (emitOnce sealedBoot "boot" [7]).state.oneTimeEvents "boot" = some [42] ∧
     (emitOnce sealedBoot "boot" [7]).trace = []) :=
  ⟨by decide, C6_sealed_emitOnce_state_unchanged sealedBoot "boot" [42] [7] (by decide)⟩

/-- C7: `clearEvents` empties the registry and the one-time map, leaves
the readiness flag unchanged, and afterwards any event — also one sealed
before — can be sealed again by `emitOnce` without error, storing the new
tuple. -/
theorem C7_clearEvents_resets (s : State) (E : Event) (args : Args) :
    (clearEvents s).subscriptions = [] ∧
    (clearEvents s).oneTimeEvents = [] ∧
    prepared (clearEvents s) = prepared s ∧
    (emitOnce (clearEvents s) E args).error = none ∧
    mapGet (emitOnce (clearEvents s) E args).state.oneTimeEvents E = some args := by
  refine ⟨rfl, rfl, rfl, ?_, ?_⟩ <;>
    simp [clearEvents, emitOnce, emit, emitLoop, mapHas, mapGet, mapSet, offOnce]

/-- C8 (counterexample): after `clearEvents()` the constructor-registered
readiness listener is gone, so assigning `true` to `prepared` emits the
readiness event into an empty registry and `prepared` still reads false —
the claimed postcondition does not hold for every emitter state. -/
theorem C8_cleared_setter_fails :
    prepared (setPrepared true (clearEvents initialState)).state = false := by
  decide

/-- C8 (amended): the setter is exactly `emit "internal_ready" []`; on any
state in which the internal readiness listener is registered and the
readiness event is not sealed — e.g. any fresh emitter — the assignment
does not throw and afterwards `prepared` reads true. -/
theorem C8_prepared_setter (s : State) (v : Bool)
    (hmem : ∃ sub ∈ s.subscriptions,
        sub.event = "internal_ready" ∧ sub.callback = Callback.internalReady)
    (hns : mapHas s.oneTimeEvents "internal_ready" = false) :
    setPrepared v s = emit s "internal_ready" [] ∧
    (setPrepared v s).error = none ∧
    prepared (setPrepared v s).state = true := by
  refine ⟨rfl, by simp [setPrepared, emit, hns], ?_⟩
  have hany : s.subscriptions.any (fun sub =>
      decide (sub.event = "internal_ready") &&
      decide (sub.callback = Callback.internalReady)) = true := by
    rcases hmem with ⟨sub, hsub, h1, h2⟩
    exact List.any_eq_true.mpr ⟨sub, hsub, by simp [h1, h2]⟩
  simp [setPrepared, emit, hns, prepared, emitLoop_state_ready, hany]

/-- Concrete instance of `C8_prepared_setter` on a fresh emitter. -/
theorem C8_prepared_setter_witness :
    ((∃ sub ∈ initialState.subscriptions,
        sub.event = "internal_ready" ∧ sub.callback = Callback.internalReady) ∧
     mapHas initialState.oneTimeEvents "internal_ready" = false) ∧
    (setPrepared true initialState = emit initialState "internal_ready" [] ∧
     (setPrepared true initialState).error = none ∧
     prepared (setPrepared true initialState).state = true) :=
  ⟨⟨by decide, by decide⟩, C8_prepared_setter initialState true (by decide) (by decide)⟩

/-- C9 (counterexample): on an already-prepared emitter with a callback
supplied, `ready` runs the callback synchronously — inside the caller's
current stack, because an async function body executes up to its first
await synchronously — not on a fresh asynchronous turn. -/
theorem C9_ready_callback_is_inline :
    (readyModel true true).cbPhase = some Phase.sync ∧
    some Phase.sync ≠ some Phase.laterTurn := by
  decide

/-- C9 (amended): when already prepared, `ready` invokes the callback
synchronously inside the `ready()` call and its promise resolves with the
callback's awaited result; when not prepared, nothing runs at
registration time and the callback is invoked by the dispatch triggered by
the later `prepared := true` assignment. -/
theorem C9_ready_phases (s : State) (pid cbId : Nat)
    (h : mapHas s.oneTimeEvents "internal_ready" = false) :
    (readyModel true true).cbPhase = some Phase.sync ∧
    (readyModel true true).resolvesWithCbResult = true ∧
    (readyModel false true).cbPhase = some Phase.laterTurn ∧
    (readyRegister s pid (some cbId)).2 = [] ∧
    TraceEvent.invoke cbId []
      ∈ (setPrepared true (readyRegister s pid (some cbId)).1).trace := by
  refine ⟨rfl, rfl, rfl, by simp [readyRegister, once, h], ?_⟩
  have hs : (readyRegister s pid (some cbId)).1
      = { s with subscriptions :=
            s.subscriptions ++ [⟨"internal_ready", Callback.onceWrapper pid (some cbId), true⟩] } := by
    simp [readyRegister, once, h]
  rw [hs]
  have h2 : mapHas ({ s with subscriptions :=
      s.subscriptions ++ [⟨"internal_ready", Callback.onceWrapper pid (some cbId), true⟩] } :
      State).oneTimeEvents "internal_ready" = false := h
  simp [setPrepared, emit, h2, emitLoop_trace, List.filter_append, List.flatMap_append, cbTrace]

/-- Concrete instance of `C9_ready_phases` on a fresh emitter. -/
theorem C9_ready_phases_witness :
    mapHas initialState.oneTimeEvents "internal_ready" = false ∧
    ((readyModel true true).cbPhase = some Phase.sync ∧
     (readyModel true true).resolvesWithCbResult = true ∧
     (readyModel false true).cbPhase = some Phase.laterTurn ∧
     (readyRegister initialState 0 (some 7)).2 = [] ∧
     TraceEvent.invoke 7 []
       ∈ (setPrepared true (readyRegister initialState 0 (some 7)).1).trace) :=
  ⟨by decide, C9_ready_phases initialState 0 7 (by decide)⟩

/-- C10: the `prepared` setter ignores the assigned value — assigning
false is the same operation as assigning true; on a fresh emitter the
assignment of false still makes `prepared` read true; and once `prepared`
reads true no assignment through the setter makes it read false again. -/
theorem C10_setter_ignores_value (v : Bool) (s : State) :
    setPrepared v s = setPrepared true s ∧
    prepared (setPrepared false initialState).state = true ∧
    (prepared s = true → prepared (setPrepared v s).state = true) := by
  refine ⟨rfl, by decide, fun h => ?_⟩
  by_cases hm : mapHas s.oneTimeEvents "internal_ready"
  · simpa [setPrepared, emit, hm, prepared] using h
  · have h' : s._ready = true := h
    simp [setPrepared, emit, hm, prepared, emitLoop_state_ready, h']

/-- Concrete instance of `C10_setter_ignores_value`: an emitter already
prepared (by a first assignment) stays prepared after assigning false. -/
theorem C10_setter_ignores_value_witness :
    prepared (setPrepared true initialState).state = true ∧
    prepared (setPrepared false (setPrepared true initialState).state).state = true :=
  ⟨by decide,
   (C10_setter_ignores_value false (setPrepared true initialState).state).2.2 (by decide)⟩

end BasicEventEmitter
